import Mathlib

/-!
Verification of the `dewart-pg` facade (src/index.js, class `DewartPG`).

The development shallowly embeds the first (authoritative) implementation of
the class found in src/index.js:

* the keyed digest used by `_hash` (node's `createHmac(alg, secret)` with the
  `sha256` algorithm, hex output) is given a concrete bit-faithful
  HMAC-SHA256 implementation over UTF-8 bytes;
* the `new RegExp(pattern, "g")` / `String.replace` machinery used by
  `hashQuery` and `hashQuerySync` is embedded for the fragment of JS regex
  syntax those patterns can exercise in this development: literal characters,
  the any-character dot, and grouping parentheses; the braces of the marker
  syntax are literal there (they never form a quantifier).  Patterns using
  other metacharacters, and replacement strings using `$`-escapes with
  capture groups, are outside the modelled fragment and are rejected by the
  embedded parser; no theorem below instantiates a field name that leaves
  the fragment.  Replacement strings are treated literally, which agrees
  with JS whenever the pattern has no capture group and the replacement has
  no `$`-escape, as in every instance below;
* the callback executor `query`, the awaited executor `querySync` and their
  templated wrappers are embedded as functions from the outcome of the pool
  interaction (lease obtained or not, query succeeded or failed) to the
  ordered list of observable events they produce (lease, query issued to the
  database, release, handler invocations, console logging, crash) together
  with the returned value.
-/

/-! ### SHA-256 (FIPS 180-4) and HMAC (RFC 2104), over byte lists -/

/-- Truncation to a 32-bit word. -/
def w32 (x : Nat) : Nat := x % 4294967296

/-- Rotate a 32-bit word right by `n`. -/
def rotr (n x : Nat) : Nat := w32 ((x >>> n) ||| (x <<< (32 - n)))

/-- Logical right shift. -/
def shr (n x : Nat) : Nat := x >>> n

/-- SHA-256 big sigma 0. -/
def bsig0 (x : Nat) : Nat := (rotr 2 x) ^^^ (rotr 13 x) ^^^ (rotr 22 x)

/-- SHA-256 big sigma 1. -/
def bsig1 (x : Nat) : Nat := (rotr 6 x) ^^^ (rotr 11 x) ^^^ (rotr 25 x)

/-- SHA-256 small sigma 0. -/
def ssig0 (x : Nat) : Nat := (rotr 7 x) ^^^ (rotr 18 x) ^^^ (shr 3 x)

/-- SHA-256 small sigma 1. -/
def ssig1 (x : Nat) : Nat := (rotr 17 x) ^^^ (rotr 19 x) ^^^ (shr 10 x)

/-- SHA-256 choice function. -/
def chf (x y z : Nat) : Nat := (x &&& y) ^^^ ((x ^^^ 4294967295) &&& z)

/-- SHA-256 majority function. -/
def majf (x y z : Nat) : Nat := (x &&& y) ^^^ (x &&& z) ^^^ (y &&& z)

/-- Force a natural number to a literal before passing it on.  Matching on
the constructor makes kernel reduction evaluate the argument eagerly, which
keeps the reduction stack flat when these definitions are evaluated by
`decide`. -/
def forceN (n : Nat) (k : Nat → α) : α :=
  match n with
  | 0 => k 0
  | m + 1 => k (m + 1)

/-- Force every element of a list of naturals (see `forceN`). -/
def forceL (l : List Nat) (k : List Nat → α) : α :=
  match l with
  | [] => k []
  | x :: xs => forceN x (fun y => forceL xs (fun ys => k (y :: ys)))

/-- The SHA-256 round constants. -/
def K256 : List Nat :=
  [1116352408, 1899447441, 3049323471, 3921009573, 961987163, 1508970993,
   2453635748, 2870763221, 3624381080, 310598401, 607225278, 1426881987,
   1925078388, 2162078206, 2614888103, 3248222580, 3835390401, 4022224774,
   264347078, 604807628, 770255983, 1249150122, 1555081692, 1996064986,
   2554220882, 2821834349, 2952996808, 3210313671, 3336571891, 3584528711,
   113926993, 338241895, 666307205, 773529912, 1294757372, 1396182291,
   1695183700, 1986661051, 2177026350, 2456956037, 2730485921, 2820302411,
   3259730800, 3345764771, 3516065817, 3600352804, 4094571909, 275423344,
   430227734, 506948616, 659060556, 883997877, 958139571, 1322822218,
   1537002063, 1747873779, 1955562222, 2024104815, 2227730452, 2361852424,
   2428436474, 2756734187, 3204031479, 3329325298]

/-- The SHA-256 initial hash value. -/
def H256init : List Nat :=
  [1779033703, 3144134277, 1013904242, 2773480762,
   1359893119, 2600822924, 528734635, 1541459225]

/-- Next word of the message schedule; `rw` holds the schedule so far in
reverse (head is the most recent word). -/
def schedNext (rw : List Nat) : Nat :=
  w32 (ssig1 (rw.getD 1 0) + rw.getD 6 0 + ssig0 (rw.getD 14 0) + rw.getD 15 0)

/-- Extend the reversed message schedule by the given number of words. -/
def schedRev (rw : List Nat) : Nat → List Nat
  | 0 => rw
  | k + 1 => forceN (schedNext rw) (fun x => schedRev (x :: rw) k)

/-- One SHA-256 compression round on the state `[a,b,c,d,e,f,g,h]`;
`kw` is the round constant already added to the schedule word. -/
def roundStep (st : List Nat) (kw : Nat) : List Nat :=
  match st with
  | [a, b, c, d, e, f, g, h] =>
    [w32 (w32 (h + bsig1 e + chf e f g + kw) + w32 (bsig0 a + majf a b c)), a, b, c,
     w32 (d + w32 (h + bsig1 e + chf e f g + kw)), e, f, g]
  | _ => st

/-- Run the compression rounds over the combined constant/schedule words. -/
def compressGo (st : List Nat) : List Nat → List Nat
  | [] => st
  | kw :: rest => forceL (roundStep st kw) (fun st2 => compressGo st2 rest)

/-- Process one 16-word block: schedule expansion, 64 rounds, feed-forward. -/
def processBlock (hs : List Nat) (block : List Nat) : List Nat :=
  let w := (schedRev block.reverse 48).reverse
  let kw := List.zipWith (fun k wt => w32 (k + wt)) K256 w
  let st := compressGo hs kw
  List.zipWith (fun x y => w32 (x + y)) hs st

/-- Fold `processBlock` over all blocks of the padded message. -/
def processBlocksGo (hs : List Nat) : List (List Nat) → List Nat
  | [] => hs
  | b :: rest => forceL (processBlock hs b) (fun hs2 => processBlocksGo hs2 rest)

/-- Big-endian 8-byte encoding of the bit length. -/
def be64 (n : Nat) : List Nat :=
  [n >>> 56 % 256, n >>> 48 % 256, n >>> 40 % 256, n >>> 32 % 256,
   n >>> 24 % 256, n >>> 16 % 256, n >>> 8 % 256, n % 256]

/-- SHA-256 padding: append `0x80`, zero bytes to 56 mod 64, and the
64-bit big-endian message bit length. -/
def padMsg (msg : List Nat) : List Nat :=
  msg ++ 128 :: List.replicate ((120 - (msg.length + 1) % 64) % 64) 0 ++ be64 (8 * msg.length)

/-- Group bytes into big-endian 32-bit words (fuel-driven for structural
recursion; the fuel is the byte count, which always suffices). -/
def bytesToWordsGo : Nat → List Nat → List Nat
  | 0, _ => []
  | _, [] => []
  | fuel + 1, a :: rest =>
    (((a * 256 + rest.getD 0 0) * 256 + rest.getD 1 0) * 256 + rest.getD 2 0) ::
      bytesToWordsGo fuel (rest.drop 3)

/-- Group bytes into big-endian 32-bit words. -/
def bytesToWords (bs : List Nat) : List Nat := bytesToWordsGo bs.length bs

/-- Split a word list into 16-word blocks (fuel-driven). -/
def chunk16Go : Nat → List Nat → List (List Nat)
  | 0, _ => []
  | _, [] => []
  | fuel + 1, x :: rest => (x :: rest.take 15) :: chunk16Go fuel (rest.drop 15)

/-- Split a word list into 16-word blocks. -/
def chunk16 (ws : List Nat) : List (List Nat) := chunk16Go ws.length ws

/-- Big-endian bytes of one 32-bit word. -/
def wordToBytes (w : Nat) : List Nat :=
  [w >>> 24 % 256, w >>> 16 % 256, w >>> 8 % 256, w % 256]

/-- SHA-256 digest (32 bytes) of a byte list. -/
def sha256 (msg : List Nat) : List Nat :=
  ((processBlocksGo H256init (chunk16 (bytesToWords (padMsg msg)))).map wordToBytes).flatten

/-- HMAC-SHA256 (RFC 2104) of a message under a key, both byte lists. -/
def hmacSha256 (key msg : List Nat) : List Nat :=
  let k0 := if key.length > 64 then sha256 key else key
  let kp := k0 ++ List.replicate (64 - k0.length) 0
  sha256 ((kp.map (fun b => b ^^^ 0x5c)) ++ sha256 ((kp.map (fun b => b ^^^ 0x36)) ++ msg))

/-- Lower-case hex digit for a value below 16. -/
def hexDigit (n : Nat) : Char :=
  match n with
  | 0 => '0' | 1 => '1' | 2 => '2' | 3 => '3' | 4 => '4' | 5 => '5' | 6 => '6' | 7 => '7'
  | 8 => '8' | 9 => '9' | 10 => 'a' | 11 => 'b' | 12 => 'c' | 13 => 'd' | 14 => 'e' | _ => 'f'

/-- Lower-case hex string of a byte list (node's `digest("hex")`). -/
def hexOfBytes (bs : List Nat) : String :=
  String.mk ((bs.map (fun b => [hexDigit (b / 16), hexDigit (b % 16)])).flatten)

/-- UTF-8 encoding of one character. -/
def utf8Char (c : Char) : List Nat :=
  let n := c.toNat
  if n < 128 then [n]
  else if n < 2048 then [192 + n / 64, 128 + n % 64]
  else if n < 65536 then [224 + n / 4096, 128 + n / 64 % 64, 128 + n % 64]
  else [240 + n / 262144, 128 + n / 4096 % 64, 128 + n / 64 % 64, 128 + n % 64]

/-- UTF-8 bytes of a string (how node's `crypto` consumes JS strings). -/
def utf8Bytes (s : String) : List Nat := (s.toList.map utf8Char).flatten

/-- Hex HMAC-SHA256 of `value` keyed with `secret`, as
`createHmac("sha256", secret).update(value).digest("hex")` produces it. -/
def hmacHexStr (secret value : String) : String :=
  hexOfBytes (hmacSha256 (utf8Bytes secret) (utf8Bytes value))

/-- Modelled from the spec: node's `createHmac(algorithm, secret)` keyed
digest, hex-encoded ("Digest computation: keyed digest (HMAC) over the
field's value, hex-encoded, using the configured algorithm and secret").
Only the `"sha256"` algorithm named by the spec's scenarios is modelled;
other algorithm names are outside the modelled library surface and yield
`none` (node throws for unrecognized digest names). -/
def createHmacHex (algorithm secret value : String) : Option String :=
  if algorithm = "sha256" then some (hmacHexStr secret value) else none

/-! ### JS `RegExp` fragment and `String.replace(re, "g")` semantics -/

/-- A token of the modelled regex fragment after flattening groups: a
literal character or the any-character dot. -/
inductive RTok where
  | lit (c : Char)
  | dot
deriving DecidableEq, Repr

/-- JS regex metacharacters.  A field name built only from characters
outside this list reaches the `RegExp` constructor as pure literal text. -/
def regexMeta : List Char :=
  ['.', '*', '+', '?', '(', ')', '[', ']', '\x7b', '\x7d', '|', '^', '$', '\\']

/-- True for characters that regex syntax treats as plain literals. -/
def safeNameChar (c : Char) : Bool := !(regexMeta.contains c)

/-- Parse the modelled regex fragment, flattening groups: `(`/`)` only
bracket (and must balance, `d` tracks the depth), `.` is the wildcard,
braces are literal (in the marker patterns they never form a quantifier),
and the remaining metacharacters are outside the fragment and rejected. -/
def parseRegexGo : List Char → Nat → Except Unit (List RTok)
  | [], 0 => .ok []
  | [], _ + 1 => .error ()
  | c :: rest, d =>
    if c = '(' then parseRegexGo rest (d + 1)
    else if c = ')' then
      match d with
      | 0 => .error ()
      | d' + 1 => parseRegexGo rest d'
    else if c = '.' then
      match parseRegexGo rest d with
      | .ok ts => .ok (RTok.dot :: ts)
      | .error e => .error e
    else if ['*', '+', '?', '[', ']', '|', '^', '$', '\\'].contains c then .error ()
    else
      match parseRegexGo rest d with
      | .ok ts => .ok (RTok.lit c :: ts)
      | .error e => .error e

/-- Whether one token matches one character; the dot excludes JS line
terminators. -/
def tokMatches : RTok → Char → Bool
  | .lit c, c' => c = c'
  | .dot, c' => !(['\n', '\r', '\u2028', '\u2029'].contains c')

/-- Match the token list against a prefix of `s`; on success return the
remainder of `s`. -/
def matchesAt : List RTok → List Char → Option (List Char)
  | [], s => some s
  | _ :: _, [] => none
  | t :: ts, c :: cs => if tokMatches t c then matchesAt ts cs else none

/-- One pass of `String.replace(re, repl)` with the global flag: scan left
to right, replace each leftmost non-overlapping match, advance one
character past an empty match (fuel-driven for structural recursion; fuel
`s.length + 1` always suffices). -/
def reReplGo (toks : List RTok) (repl : List Char) : Nat → List Char → List Char
  | 0, s => s
  | _ + 1, [] =>
    match matchesAt toks [] with
    | some _ => repl
    | none => []
  | fuel + 1, c :: cs =>
    match matchesAt toks (c :: cs) with
    | some rest =>
      match toks with
      | [] => repl ++ c :: reReplGo [] repl fuel cs
      | _ :: _ => repl ++ reReplGo toks repl fuel rest
    | none => c :: reReplGo toks repl fuel cs

/-- JS `query.replace(new RegExp(pattern, "g"), repl)` in the modelled
fragment: an invalid pattern makes the `RegExp` constructor throw, a valid
one replaces all occurrences.  The replacement string is taken literally
(faithful whenever the pattern has no capture group and the replacement no
`$`-escape). -/
def jsReplaceAll (pattern repl s : String) : Except Unit String :=
  match parseRegexGo pattern.toList 0 with
  | .error _ => .error ()
  | .ok toks => .ok (String.mk (reReplGo toks repl.toList (s.length + 1) s.toList))

/-- Plain-text all-occurrence replacement, stated independently of the
regex machinery (the spec's words: "replace all occurrences of the
... marker"); same scan shape as `reReplGo`. -/
def replaceAllLitGo (pat repl : List Char) : Nat → List Char → List Char
  | 0, s => s
  | _ + 1, [] => if pat.isEmpty then repl else []
  | fuel + 1, c :: cs =>
    if pat.isPrefixOf (c :: cs) then
      match pat with
      | [] => repl ++ c :: replaceAllLitGo [] repl fuel cs
      | _ :: _ => repl ++ replaceAllLitGo pat repl fuel ((c :: cs).drop pat.length)
    else c :: replaceAllLitGo pat repl fuel cs

/-- Plain-text all-occurrence replacement on strings. -/
def replaceAllLit (pat repl s : String) : String :=
  String.mk (replaceAllLitGo pat.toList repl.toList (s.length + 1) s.toList)

/-- Executable substring test on character lists. -/
def isSubstrGo (pat : List Char) : List Char → Bool
  | [] => pat.isEmpty
  | c :: cs => pat.isPrefixOf (c :: cs) || isSubstrGo pat cs

/-- Whether `pat` occurs as a substring of `s`. -/
def containsSub (pat s : String) : Bool := isSubstrGo pat.toList s.toList

/-! ### Data model of the facade (src/index.js) -/

/-- The `input.hash` object: secret key and digest algorithm name; either property can
be absent (`undefined`). -/
structure HashConfig where
  secret : Option String
  algorithm : Option String
deriving DecidableEq, Repr

/-- The constructor's `input`, kept in `this._configs`.  The connection
sub-object is an opaque pass-through to the external `pg.Pool` and is not
modelled; `hash` is the hash configuration (absent when the property is
`undefined`), `logs` the optional logging flag read by `query`/`querySync`. -/
structure Configs where
  hash : Option HashConfig
  logs : Option Bool
deriving DecidableEq, Repr

/-- The `values` argument of `hashQuery`/`hashQuerySync`: the `hash` and
`other` groups, each an object modelled as its key-enumeration-ordered list
of (field name, value) pairs, or absent. -/
structure TemplateParams where
  hash : Option (List (String × String))
  other : Option (List (String × String))
deriving DecidableEq, Repr

/-- One resolved parameter `{name, value}` as pushed by
`_prepareHashParams`. -/
structure Param where
  name : String
  value : String
deriving DecidableEq, Repr

/-- The errors a call can throw or receive: `configError` for the
`Error(...)` thrown by `hashQuery`/`hashQuerySync`/`_hash` on missing hash
configuration, `typeError` for a property access or method call on
`undefined`, `digestError` for `createHmac` rejecting an algorithm name,
`regexError` for an invalid pattern in the `RegExp` constructor. -/
inductive JsError where
  | configError
  | typeError
  | digestError
  | regexError
deriving DecidableEq, Repr

/-- The value a blocking-style call returns: a query result (abstracted to
an identifier), the failure sentinel `false`, or `undefined`. -/
inductive JsValue where
  | result (r : Nat)
  | boolFalse
  | undefined
deriving DecidableEq, Repr

/-- Outcome of one leased query: the database answers with a result or
rejects the statement. -/
inductive QueryOutcome where
  | success (r : Nat)
  | failure
deriving DecidableEq, Repr

/-- Observable events of one call, in order: the entry `console.log` of
query and values, a connection leased from the pool, the statement handed
to `client.query`, `release()` called, the caller's error handler or
success callback invoked, an error logged to the console, the prepared
parameters logged by `hashQuerySync`, or an uncaught `TypeError` crash. -/
inductive Event where
  | logQuery (q : String) (vs : List String)
  | leased
  | dbCall (q : String) (vs : List String)
  | released
  | errorCalled
  | callbackCalled (r : Option Nat)
  | logged
  | logValues (ps : List Param)
  | crashed
deriving DecidableEq, Repr

namespace DewartPG

/-- Method `_hash(value)` (src/index.js:194-200): throws when the configuration
holds no secret or no algorithm (a `TypeError` already on reading `.secret`
when `input.hash` itself is absent), otherwise returns the hex HMAC of the
value under the configured algorithm and secret. -/
def _hash (cfg : Configs) (value : String) : Except JsError String :=
  match cfg.hash with
  | none => .error .typeError
  | some h =>
    match h.secret, h.algorithm with
    | some s, some a =>
      match createHmacHex a s value with
      | some d => .ok d
      | none => .error .digestError
    | _, _ => .error .configError

/-- The `hash`-group loop of `_prepareHashParams` (src/index.js:169-177):
push `{name: key, value: _hash(value)}` in key order, propagating the first
thrown error. -/
def hashParamsList (cfg : Configs) : List (String × String) → Except JsError (List Param)
  | [] => .ok []
  | kv :: rest =>
    match _hash cfg kv.2 with
    | .error e => .error e
    | .ok d =>
      match hashParamsList cfg rest with
      | .error e => .error e
      | .ok ps => .ok (⟨kv.1, d⟩ :: ps)

/-- Method `_prepareHashParams(values)` (src/index.js:167-189): digested `hash`
fields first (skipped when the group is absent), then `other` fields
verbatim. -/
def _prepareHashParams (cfg : Configs) (values : TemplateParams) : Except JsError (List Param) :=
  match (match values.hash with | none => Except.ok [] | some l => hashParamsList cfg l) with
  | .error e => .error e
  | .ok hs => .ok (hs ++ (values.other.getD []).map (fun kv => ⟨kv.1, kv.2⟩))

/-- The name-marker pattern `{%name%}` handed to `new RegExp`, the raw
field name interpolated without escaping (src/index.js:121). -/
def namePattern (name : String) : String := "\x7b%" ++ name ++ "%\x7d"

/-- The value-marker pattern `{&name&}` handed to `new RegExp`, the raw
field name interpolated without escaping (src/index.js:121). -/
def valuePattern (name : String) : String := "\x7b&" ++ name ++ "&\x7d"

/-- The substitution loop of `hashQuery`/`hashQuerySync`
(src/index.js:118-123 and 151-156): for each prepared field, replace all
occurrences of its name marker with the field name and of its value marker
with `$<counter>` — the counter is incremented and the field's value pushed
on every iteration, whether or not a marker occurred. -/
def substLoop : List Param → String → Nat → Except JsError (String × List String)
  | [], q, _ => .ok (q, [])
  | p :: rest, q, counter =>
    match jsReplaceAll (namePattern p.name) p.name q with
    | .error _ => .error .regexError
    | .ok q1 =>
      match jsReplaceAll (valuePattern p.name) ("$" ++ toString (counter + 1)) q1 with
      | .error _ => .error .regexError
      | .ok q2 =>
        match substLoop rest q2 (counter + 1) with
        | .error e => .error e
        | .ok (qf, vs) => .ok (qf, p.value :: vs)

/-- The guard at src/index.js:114 and 147: reading
`this._configs.hash.secret` throws a `TypeError` when `hash` is absent, and
the method throws its configuration `Error` when `secret` is `undefined` —
in both cases regardless of which template fields are requested. -/
def checkSecret (cfg : Configs) : Except JsError Unit :=
  match cfg.hash with
  | none => .error .typeError
  | some h =>
    match h.secret with
    | none => .error .configError
    | some _ => .ok ()

/-- The pure resolution part shared by `hashQuery` (src/index.js:112-124)
and `hashQuerySync` (src/index.js:145-157): secret guard, parameter
preparation, substitution loop.  `.ok (q, vs)` is the statement and bind
values handed to `query`/`querySync`; `.error` means the resolution threw
and no statement reaches the database. -/
def hashQueryResolve (cfg : Configs) (query : String) (values : TemplateParams) :
    Except JsError (String × List String) :=
  match checkSecret cfg with
  | .error e => .error e
  | .ok _ =>
    match _prepareHashParams cfg values with
    | .error e => .error e
    | .ok ps => substLoop ps query 0

/-- The entry `console.log(query, values)` of `query`/`querySync`, emitted
when `this._configs.logs` is defined and truthy (src/index.js:57-59, 76-78). -/
def logEvents (cfg : Configs) (q : String) (vs : List String) : List Event :=
  if cfg.logs = some true then [.logQuery q vs] else []

/-- Method `query(query, values, callback, error)` (src/index.js:56-68) as its
event trace.  `conn = none`: the pool fails to lease (`err` set, `client`
`undefined`); the error handler is invoked if it is a function, otherwise
execution falls through to `client.query` on `undefined` and crashes.
`conn = some o`: a client is leased, the statement runs, `release()` is
called first in the result callback; a query error goes to the error
handler if present, otherwise the success callback (if present) is invoked
with `undefined`; a result goes to the success callback if present. -/
def queryRun (cfg : Configs) (q : String) (vs : List String) (hasCb hasErr : Bool)
    (conn : Option QueryOutcome) : List Event :=
  logEvents cfg q vs ++
    match conn with
    | none => if hasErr then [.errorCalled] else [.crashed]
    | some o =>
      .leased :: .dbCall q vs :: .released ::
        match o with
        | .failure =>
          if hasErr then [.errorCalled]
          else if hasCb then [.callbackCalled none] else []
        | .success r => if hasCb then [.callbackCalled (some r)] else []

/-- Method `querySync(query, values)` (src/index.js:75-93) as its event trace and
returned value.  A lease failure is caught and logged and `false` is
returned.  On a leased connection, a query error is caught and logged and
`false` is returned — `client.release()` is only reached on the success
path.  On success the client is released and the result returned. -/
def querySyncRun (cfg : Configs) (q : String) (vs : List String)
    (conn : Option QueryOutcome) : List Event × JsValue :=
  (logEvents cfg q vs ++
    match conn with
    | none => [.logged]
    | some .failure => [.leased, .dbCall q vs, .logged]
    | some (.success _) => [.leased, .dbCall q vs, .released],
   match conn with
   | none => .boolFalse
   | some .failure => .boolFalse
   | some (.success r) => .result r)

/-- Method `hashQuery(query, values, callback, error)` (src/index.js:112-128) as
its event trace: a resolution error is caught and routed to the error
handler when that is a function, silently dropped otherwise; a successful
resolution delegates to `query`. -/
def hashQueryRun (cfg : Configs) (q : String) (values : TemplateParams)
    (hasCb hasErr : Bool) (conn : Option QueryOutcome) : List Event :=
  match hashQueryResolve cfg q values with
  | .error _ => if hasErr then [.errorCalled] else []
  | .ok qv => queryRun cfg qv.1 qv.2 hasCb hasErr conn

/-- Method `hashQuerySync(query, values)` (src/index.js:145-161) as its event
trace and returned value: a thrown error is caught and logged and the
function returns `undefined`; after a successful preparation the prepared
parameters are logged (src/index.js:150) and a successful resolution
delegates to `querySync`. -/
def hashQuerySyncRun (cfg : Configs) (q : String) (values : TemplateParams)
    (conn : Option QueryOutcome) : List Event × JsValue :=
  match checkSecret cfg with
  | .error _ => ([.logged], .undefined)
  | .ok _ =>
    match _prepareHashParams cfg values with
    | .error _ => ([.logged], .undefined)
    | .ok ps =>
      match substLoop ps q 0 with
      | .error _ => ([.logValues ps, .logged], .undefined)
      | .ok qv =>
        let r := querySyncRun cfg qv.1 qv.2 conn
        (.logValues ps :: r.1, r.2)

/-- The value `DewartPG.length` as read by the static `disconnect` loop bound
(src/index.js:34): in JS the `length` of a class is the declared parameter
count of its constructor, and `constructor(input)` declares one parameter. -/
def length : Nat := 1

/-- The loop body of the static `disconnect` (src/index.js:33-38), iterating
`i` from `0` while `i < DewartPG.length` (fuel counts the remaining
iterations): `_connections[i].close()` is a `TypeError` when the index is
past the registry, otherwise facade `i` is closed. -/
def disconnectGo (conns : List α) (i : Nat) : Nat → Except JsError (List Nat)
  | 0 => .ok []
  | fuel + 1 =>
    match conns[i]? with
    | none => .error .typeError
    | some _ =>
      match disconnectGo conns (i + 1) fuel with
      | .error e => .error e
      | .ok rest => .ok (i :: rest)

/-- The static `disconnect` (src/index.js:33-38) over the registry
`DewartPG._connections` built up by the constructor (src/index.js:28): the
list of registry indices whose facade gets closed, or the thrown error. -/
def disconnect (conns : List α) : Except JsError (List Nat) :=
  disconnectGo conns 0 length

end DewartPG

/-- Number of distinct positional placeholders `$1 … $n` that occur as
substrings of the rewritten query. -/
def distinctPlaceholders (q : String) (n : Nat) : Nat :=
  ((List.range n).filter (fun i => containsSub ("$" ++ toString (i + 1)) q)).length

/-- Characters the embedded regex parser treats as plain literals: everything
except the bracketing, wildcard and rejected metacharacters.  The marker
braces and `%`/`&` delimiters are plain; `safeNameChar` is strictly
stronger. -/
def plainRe (c : Char) : Bool :=
  !(['(', ')', '.', '*', '+', '?', '[', ']', '|', '^', '$', '\\'].contains c)

/-- Decidable equality for `Except`, so concrete runs can be checked by
`decide`. -/
instance exceptDecEq {ε α : Type} [DecidableEq ε] [DecidableEq α] :
    DecidableEq (Except ε α) := fun x y =>
  match x, y with
  | .error a, .error b =>
    if h : a = b then .isTrue (by rw [h]) else .isFalse (fun e => by cases e; exact h rfl)
  | .ok a, .ok b =>
    if h : a = b then .isTrue (by rw [h]) else .isFalse (fun e => by cases e; exact h rfl)
  | .error _, .ok _ => .isFalse (fun e => by cases e)
  | .ok _, .error _ => .isFalse (fun e => by cases e)

/-! ### Helper lemmas -/

theorem plainRe_spec {c : Char} (h : plainRe c = true) :
    ¬c = '(' ∧ ¬c = ')' ∧ ¬c = '.' ∧
      (¬c = '*' ∧ ¬c = '+' ∧ ¬c = '?' ∧ ¬c = '[' ∧ ¬c = ']' ∧
        ¬c = '|' ∧ ¬c = '^' ∧ ¬c = '$' ∧ ¬c = '\\') := by
  simp [plainRe] at h
  tauto

theorem safe_plainRe {c : Char} (h : safeNameChar c = true) : plainRe c = true := by
  simp [safeNameChar, regexMeta] at h
  simp [plainRe]
  tauto

theorem parseRegexGo_lit : ∀ l : List Char, (∀ c ∈ l, plainRe c = true) →
    parseRegexGo l 0 = .ok (l.map RTok.lit) := by
  intro l
  induction l with
  | nil => intro _; rfl
  | cons c rest ih =>
    intro h
    obtain ⟨h1, h2, h3, h4⟩ := plainRe_spec (h c (List.mem_cons_self c rest))
    rw [List.map_cons, parseRegexGo, if_neg h1, if_neg h2, if_neg h3,
      if_neg (by simp; exact h4), ih fun x hx => h x (List.mem_cons_of_mem c hx)]

theorem matchesAt_lit (p : List Char) : ∀ s, matchesAt (p.map RTok.lit) s =
    if p.isPrefixOf s then some (s.drop p.length) else none := by
  induction p with
  | nil => intro s; simp [matchesAt, List.isPrefixOf]
  | cons c p' ih =>
    intro s
    cases s with
    | nil => simp [matchesAt, List.isPrefixOf]
    | cons d s' =>
      by_cases hc : c = d
      · subst hc
        simp [matchesAt, tokMatches, List.isPrefixOf, ih s']
      · simp [matchesAt, tokMatches, List.isPrefixOf, hc]

theorem reReplGo_lit (p repl : List Char) : ∀ fuel s,
    reReplGo (p.map RTok.lit) repl fuel s = replaceAllLitGo p repl fuel s := by
  intro fuel
  induction fuel with
  | zero => intro s; rfl
  | succ f ih =>
    intro s
    cases s with
    | nil =>
      cases p with
      | nil => rfl
      | cons c p' => rfl
    | cons d s' =>
      simp only [reReplGo, replaceAllLitGo, matchesAt_lit]
      by_cases hp : p.isPrefixOf (d :: s')
      · rw [if_pos hp, if_pos hp]
        cases p with
        | nil => simpa using ih s'
        | cons c p' => simpa using ih (List.drop p'.length s')
      · rw [if_neg hp, if_neg hp, ih]

theorem jsReplaceAll_lit (pat repl s : String) (h : ∀ c ∈ pat.toList, plainRe c = true) :
    jsReplaceAll pat repl s = .ok (replaceAllLit pat repl s) := by
  unfold jsReplaceAll replaceAllLit
  rw [parseRegexGo_lit _ h]
  simp only [reReplGo_lit]

theorem namePattern_toList (name : String) :
    (DewartPG.namePattern name).toList = '\x7b' :: '%' :: name.toList ++ ['%', '\x7d'] := by
  simp [DewartPG.namePattern, String.toList, String.data_append]

theorem valuePattern_toList (name : String) :
    (DewartPG.valuePattern name).toList = '\x7b' :: '&' :: name.toList ++ ['&', '\x7d'] := by
  simp [DewartPG.valuePattern, String.toList, String.data_append]

theorem namePattern_plain (name : String) (h : ∀ c ∈ name.toList, safeNameChar c = true) :
    ∀ c ∈ (DewartPG.namePattern name).toList, plainRe c = true := by
  intro c hc
  rw [namePattern_toList] at hc
  simp at hc
  rcases hc with hc | hc | hc | hc | hc
  · subst hc; rfl
  · subst hc; rfl
  · exact safe_plainRe (h c hc)
  · subst hc; rfl
  · subst hc; rfl

theorem valuePattern_plain (name : String) (h : ∀ c ∈ name.toList, safeNameChar c = true) :
    ∀ c ∈ (DewartPG.valuePattern name).toList, plainRe c = true := by
  intro c hc
  rw [valuePattern_toList] at hc
  simp at hc
  rcases hc with hc | hc | hc | hc | hc
  · subst hc; rfl
  · subst hc; rfl
  · exact safe_plainRe (h c hc)
  · subst hc; rfl
  · subst hc; rfl

theorem substLoop_safe : ∀ (ps : List Param) (q : String) (counter : Nat),
    (∀ p ∈ ps, ∀ c ∈ p.name.toList, safeNameChar c = true) →
    ∃ qv, DewartPG.substLoop ps q counter = .ok qv := by
  intro ps
  induction ps with
  | nil => exact fun q counter _ => ⟨(q, []), rfl⟩
  | cons p rest ih =>
    intro q counter h
    have hname := h p (List.mem_cons_self p rest)
    simp only [DewartPG.substLoop,
      jsReplaceAll_lit _ _ _ (namePattern_plain p.name hname),
      jsReplaceAll_lit _ _ _ (valuePattern_plain p.name hname)]
    obtain ⟨qv, hqv⟩ := ih (replaceAllLit (DewartPG.valuePattern p.name)
      ("$" ++ toString (counter + 1))
      (replaceAllLit (DewartPG.namePattern p.name) p.name q)) (counter + 1)
      (fun x hx => h x (List.mem_cons_of_mem p hx))
    rw [hqv]
    exact ⟨(qv.1, p.value :: qv.2), rfl⟩

theorem substLoop_values : ∀ (ps : List Param) (q : String) (counter : Nat)
    (qf : String) (vs : List String),
    DewartPG.substLoop ps q counter = .ok (qf, vs) → vs = ps.map Param.value := by
  intro ps
  induction ps with
  | nil =>
    intro q counter qf vs h
    rw [DewartPG.substLoop] at h
    cases h
    rfl
  | cons p rest ih =>
    intro q counter qf vs h
    rw [DewartPG.substLoop] at h
    split at h
    · exact absurd h (by simp)
    · split at h
      · exact absurd h (by simp)
      · split at h
        · exact absurd h (by simp)
        · rename_i q1 hq1 q2 hq2 qv hqv
          cases h
          simp [ih _ _ _ _ hqv]

theorem hashParamsList_ok (cfg : Configs) (s : String)
    (h : cfg.hash = some ⟨some s, some "sha256"⟩) :
    ∀ l : List (String × String), DewartPG.hashParamsList cfg l =
      .ok (l.map fun kv => ⟨kv.1, hmacHexStr s kv.2⟩) := by
  intro l
  induction l with
  | nil => rfl
  | cons kv rest ih =>
    rw [DewartPG.hashParamsList]
    simp [DewartPG._hash, h, createHmacHex, ih]

theorem prepareHashParams_ok (cfg : Configs) (s : String) (vals : TemplateParams)
    (h : cfg.hash = some ⟨some s, some "sha256"⟩) :
    DewartPG._prepareHashParams cfg vals =
      .ok ((vals.hash.getD []).map (fun kv => ⟨kv.1, hmacHexStr s kv.2⟩) ++
        (vals.other.getD []).map (fun kv => ⟨kv.1, kv.2⟩)) := by
  unfold DewartPG._prepareHashParams
  cases hv : vals.hash with
  | none => simp
  | some l => simp [hashParamsList_ok cfg s h l]

/-! ### Claims -/

set_option maxRecDepth 4000

/-- C1: the claim says every call of `query`/`querySync` that obtains a
lease releases it exactly once before the caller is notified, also on query
failure.  `query` does (last conjunct), but `querySync` evaluated at a
failing statement leases a connection and never releases it: the catch
branch at src/index.js:86-88 skips `client.release()`, so leases (1) exceed
releases (0) — the code contradicts the spec's release invariant. -/
theorem c1_querySync_release_missing :
    (DewartPG.querySyncRun ⟨none, none⟩ "SELECT 1" [] (some .failure)).1.count .released = 0 ∧
    (DewartPG.querySyncRun ⟨none, none⟩ "SELECT 1" [] (some .failure)).1.count .leased = 1 ∧
    (DewartPG.querySyncRun ⟨none, none⟩ "SELECT 1" [] (some .failure)).2 = .boolFalse ∧
    (DewartPG.queryRun ⟨none, none⟩ "SELECT 1" [] true true (some .failure)).count .released = 1 := by
  decide

/-- C6: `querySync` catches a lease failure and a query failure internally
and returns the sentinel `false` in both cases, and returns the query
result on success. -/
theorem c6_querySync_sentinel : ∀ (cfg : Configs) (q : String) (vs : List String) (r : Nat),
    (DewartPG.querySyncRun cfg q vs none).2 = .boolFalse ∧
    (DewartPG.querySyncRun cfg q vs (some .failure)).2 = .boolFalse ∧
    (DewartPG.querySyncRun cfg q vs (some (.success r))).2 = .result r :=
  fun _ _ _ _ => ⟨rfl, rfl, rfl⟩

/-- C9: the static `disconnect` iterates up to `DewartPG.length` — the
class's parameter count 1, not the registry length — so on a non-empty
registry it closes exactly the first registered facade (index 0, never a
later one), and on an empty registry it throws a `TypeError` instead of
completing cleanly. -/
theorem c9_disconnect_first_only : ∀ (conns : List Nat),
    (conns ≠ [] → DewartPG.disconnect conns = .ok [0]) ∧
    (conns = [] → DewartPG.disconnect conns = .error .typeError) := by
  intro conns
  cases conns with
  | nil => exact ⟨fun h => absurd rfl h, fun _ => rfl⟩
  | cons a rest =>
    exact ⟨fun _ => by simp [DewartPG.disconnect, DewartPG.disconnectGo, DewartPG.length],
      fun h => by cases h⟩

/-- C9 witness: with two registered facades only the first is closed; with
none, the call throws. -/
theorem c9_witness :
    DewartPG.disconnect [7, 8] = .ok [0] ∧
    DewartPG.disconnect ([] : List Nat) = .error .typeError :=
  ⟨(c9_disconnect_first_only [7, 8]).1 (by decide),
   (c9_disconnect_first_only []).2 rfl⟩

/-- C7: with a configured secret and the modelled algorithm,
`_prepareHashParams` returns exactly the `hash`-group fields in enumeration
order, each digested, followed by the `other`-group fields verbatim in
enumeration order. -/
theorem c7_prepare_order : ∀ (cfg : Configs) (s : String) (vals : TemplateParams),
    cfg.hash = some ⟨some s, some "sha256"⟩ →
    DewartPG._prepareHashParams cfg vals =
      .ok ((vals.hash.getD []).map (fun kv => ⟨kv.1, hmacHexStr s kv.2⟩) ++
        (vals.other.getD []).map (fun kv => ⟨kv.1, kv.2⟩)) :=
  fun cfg s vals h => prepareHashParams_ok cfg s vals h

/-- C7 witness: one hash field and one other field resolve to the digested
pair followed by the verbatim pair. -/
theorem c7_witness :
    DewartPG._prepareHashParams ⟨some ⟨some "k", some "sha256"⟩, none⟩
      ⟨some [("a", "x")], some [("b", "y")]⟩ =
      .ok [⟨"a", hmacHexStr "k" "x"⟩, ⟨"b", "y"⟩] :=
  c7_prepare_order _ "k" _ rfl

/-- C8: the digest only depends on the hash configuration and the value —
two facades with equal hash configuration digest every value identically —
and changing the secret changes the digest of `"alice"`. -/
theorem c8_digest_determinism :
    (∀ (cfg1 cfg2 : Configs) (v : String), cfg1.hash = cfg2.hash →
      DewartPG._hash cfg1 v = DewartPG._hash cfg2 v) ∧
    hmacHexStr "k" "alice" ≠ hmacHexStr "k2" "alice" :=
  ⟨fun cfg1 cfg2 v h => by simp only [DewartPG._hash, h], by decide⟩

/-- C8 witness: two configurations differing only in the logging flag hash
`"alice"` identically. -/
theorem c8_witness :
    DewartPG._hash ⟨some ⟨some "k", some "sha256"⟩, some true⟩ "alice" =
    DewartPG._hash ⟨some ⟨some "k", some "sha256"⟩, none⟩ "alice" :=
  c8_digest_determinism.1 _ _ "alice" rfl

/-- C2: the spec's concrete scenario.  Resolving
`"SELECT * FROM users WHERE \x7b%login%\x7d=\x7b&login&\x7d"` with hash group
`login: "alice"`, secret `"k"`, algorithm `"sha256"` yields
`"SELECT * FROM users WHERE login=$1"` with exactly one bind value, the hex
HMAC-SHA256 of `"alice"` keyed with `"k"` (pinned to its independently
computed value). -/
theorem c2_hash_template_scenario :
    DewartPG.hashQueryResolve ⟨some ⟨some "k", some "sha256"⟩, none⟩
      "SELECT * FROM users WHERE \x7b%login%\x7d=\x7b&login&\x7d"
      ⟨some [("login", "alice")], none⟩ =
      .ok ("SELECT * FROM users WHERE login=$1", [hmacHexStr "k" "alice"]) ∧
    hmacHexStr "k" "alice" =
      "ec631a55bb81f5b9dc96aa930a45628d452abe41f899db1085bc350c0c9cf9a1" := by
  exact ⟨by decide, by decide⟩

/-- C4 counterexample: with fields `a` and `b` but only `b`'s markers in the
query, the resolver still emits two bind values and numbers `b`'s
placeholder `$2`; the rewritten query contains one distinct placeholder
(`$1` never occurs), not two, refuting "bind values are emitted only for
fields whose value marker occurs" and the count equality. -/
theorem c4_counterexample :
    DewartPG.hashQueryResolve ⟨some ⟨some "k", none⟩, none⟩
      "WHERE \x7b%b%\x7d=\x7b&b&\x7d" ⟨none, some [("a", "x"), ("b", "y")]⟩ =
      .ok ("WHERE b=$2", ["x", "y"]) ∧
    distinctPlaceholders "WHERE b=$2" 2 = 1 ∧
    containsSub "$1" "WHERE b=$2" = false := by
  exact ⟨by decide, by decide, by decide⟩

/-- C4 amended: the resolver pushes one bind value per resolved field
unconditionally — whether or not the field's value marker occurs — so a
successful resolution's bind list is exactly the resolved parameters'
values in order (and its length is the field count, not the number of
distinct placeholders in the rewritten query). -/
theorem c4_bind_values_per_field (cfg : Configs) (q : String) (vals : TemplateParams)
    (qf : String) (vs : List String)
    (h : DewartPG.hashQueryResolve cfg q vals = .ok (qf, vs)) :
    ∃ ps, DewartPG._prepareHashParams cfg vals = .ok ps ∧ vs = ps.map Param.value := by
  rw [DewartPG.hashQueryResolve] at h
  split at h
  · exact absurd h (by simp)
  · split at h
    · exact absurd h (by simp)
    · rename_i ps hps
      exact ⟨ps, hps, substLoop_values ps q 0 qf vs h⟩

/-- C4 witness: the amended claim at a concrete resolution. -/
theorem c4_witness :
    ∃ ps, DewartPG._prepareHashParams ⟨some ⟨some "k", none⟩, none⟩
        ⟨none, some [("a", "x2"), ("b", "y2")]⟩ = .ok ps ∧
      ["x2", "y2"] = ps.map Param.value :=
  c4_bind_values_per_field _ "WHERE \x7b%b%\x7d=\x7b&b&\x7d" _ "WHERE b=$2" ["x2", "y2"]
    (by decide)

/-- C5 counterexample: a query error with a success callback but no error
handler is neither logged nor silently dropped — `query` falls through and
invokes the success callback with `undefined` (src/index.js:64-65),
refuting "the error is logged and silently dropped, with no other effect on
the caller". -/
theorem c5_counterexample :
    Event.logged ∉ DewartPG.queryRun ⟨none, none⟩ "q" [] true false (some .failure) ∧
    Event.callbackCalled none ∈ DewartPG.queryRun ⟨none, none⟩ "q" [] true false (some .failure) := by
  exact ⟨by decide, by decide⟩

/-- C5 amended: when a caller-supplied error handler is present, connection
and query errors are routed to it (no crash, no success callback).  When it
is absent the error is never logged; instead a connection error crashes the
call on the `undefined` client, a query error invokes the success callback
(when present) with `undefined` and is otherwise dropped; `hashQuery`
routes resolution errors to the handler when present and drops them
silently otherwise. -/
theorem c5_error_routing :
    (∀ (cfg : Configs) (q : String) (vs : List String) (hasCb : Bool)
      (conn : Option QueryOutcome), conn = none ∨ conn = some .failure →
        Event.errorCalled ∈ DewartPG.queryRun cfg q vs hasCb true conn ∧
        Event.crashed ∉ DewartPG.queryRun cfg q vs hasCb true conn ∧
        ∀ r, Event.callbackCalled r ∉ DewartPG.queryRun cfg q vs hasCb true conn) ∧
    (∀ (cfg : Configs) (q : String) (vs : List String) (hasCb : Bool)
      (conn : Option QueryOutcome),
      Event.logged ∉ DewartPG.queryRun cfg q vs hasCb false conn) ∧
    (∀ (cfg : Configs) (q : String) (vs : List String) (hasCb : Bool),
      Event.crashed ∈ DewartPG.queryRun cfg q vs hasCb false none) ∧
    (∀ (cfg : Configs) (q : String) (vs : List String),
      Event.callbackCalled none ∈ DewartPG.queryRun cfg q vs true false (some .failure) ∧
      DewartPG.queryRun cfg q vs false false (some .failure) =
        DewartPG.logEvents cfg q vs ++ [.leased, .dbCall q vs, .released]) ∧
    (∀ (cfg : Configs) (q : String) (vals : TemplateParams) (conn : Option QueryOutcome)
      (hasCb : Bool) (e : JsError), DewartPG.hashQueryResolve cfg q vals = .error e →
        DewartPG.hashQueryRun cfg q vals hasCb true conn = [.errorCalled] ∧
        DewartPG.hashQueryRun cfg q vals hasCb false conn = []) := by
  refine ⟨?_, ?_, ?_, ?_, ?_⟩
  · rintro cfg q vs hasCb conn (rfl | rfl) <;>
      cases hasCb <;> simp [DewartPG.queryRun, DewartPG.logEvents]
  · rintro cfg q vs hasCb (_ | o)
    · cases hasCb <;> simp [DewartPG.queryRun, DewartPG.logEvents]
    · cases o <;> cases hasCb <;> simp [DewartPG.queryRun, DewartPG.logEvents]
  · intro cfg q vs hasCb
    simp [DewartPG.queryRun, DewartPG.logEvents]
  · intro cfg q vs
    constructor
    · simp [DewartPG.queryRun, DewartPG.logEvents]
    · simp [DewartPG.queryRun]
  · intro cfg q vals conn hasCb e h
    constructor <;> simp [DewartPG.hashQueryRun, h]

/-- C5 witness: the amended routing at concrete calls — a connection error
with a handler reaches the handler, and a resolution error (no hash
configuration) with a handler reaches the handler without touching the
database. -/
theorem c5_witness :
    Event.errorCalled ∈ DewartPG.queryRun ⟨none, none⟩ "w" [] false true none ∧
    DewartPG.hashQueryRun ⟨none, none⟩ "w" ⟨none, none⟩ false true (some (.success 1)) =
      [.errorCalled] :=
  ⟨(c5_error_routing.1 ⟨none, none⟩ "w" [] false none (Or.inl rfl)).1,
   (c5_error_routing.2.2.2.2 ⟨none, none⟩ "w" ⟨none, none⟩ (some (.success 1)) false
      .typeError (by decide)).1⟩

/-- C3 counterexample: the claim says a call with no hash fields (only an
`other` field) succeeds without hash configuration, but `hashQuery`'s guard
reads `this._configs.hash.secret` unconditionally, so the call fails before
reaching the database (here with the `TypeError` of reading `.secret` of
`undefined`) and the error handler is invoked instead of the statement
running. -/
theorem c3_counterexample :
    DewartPG.hashQueryResolve ⟨none, none⟩ "SELECT 1" ⟨none, some [("b", "y")]⟩ =
      .error .typeError ∧
    DewartPG.hashQueryRun ⟨none, none⟩ "SELECT 1" ⟨none, some [("b", "y")]⟩ true true
      (some (.success 0)) = [.errorCalled] := by
  exact ⟨by decide, by decide⟩

/-- C3 amended: `hashQuery`/`hashQuerySync` fail before reaching the
database whenever the hash configuration is absent (`TypeError`) or the
secret is missing (configuration error), regardless of whether hash fields
are requested; with a secret but no algorithm they fail exactly when a hash
field is present; any resolution failure produces no lease and no database
call in either variant; and with a secret configured, no hash fields and
regex-safe `other` field names the call resolves successfully (no algorithm
needed). -/
theorem c3_secret_required_unconditionally :
    (∀ (cfg : Configs) (q : String) (vals : TemplateParams), cfg.hash = none →
      DewartPG.hashQueryResolve cfg q vals = .error .typeError) ∧
    (∀ (cfg : Configs) (h : HashConfig) (q : String) (vals : TemplateParams),
      cfg.hash = some h → h.secret = none →
      DewartPG.hashQueryResolve cfg q vals = .error .configError) ∧
    (∀ (cfg : Configs) (s : String) (q : String) (vals : TemplateParams)
      (kv : String × String) (l : List (String × String)),
      cfg.hash = some ⟨some s, none⟩ → vals.hash = some (kv :: l) →
      DewartPG.hashQueryResolve cfg q vals = .error .configError) ∧
    (∀ (cfg : Configs) (q : String) (vals : TemplateParams) (e : JsError)
      (hasCb hasErr : Bool) (conn : Option QueryOutcome),
      DewartPG.hashQueryResolve cfg q vals = .error e →
      (∀ q2 vs, Event.dbCall q2 vs ∉ DewartPG.hashQueryRun cfg q vals hasCb hasErr conn) ∧
      Event.leased ∉ DewartPG.hashQueryRun cfg q vals hasCb hasErr conn ∧
      (∀ q2 vs, Event.dbCall q2 vs ∉ (DewartPG.hashQuerySyncRun cfg q vals conn).1) ∧
      Event.leased ∉ (DewartPG.hashQuerySyncRun cfg q vals conn).1) ∧
    (∀ (cfg : Configs) (s : String) (alg : Option String) (q : String)
      (vals : TemplateParams),
      cfg.hash = some ⟨some s, alg⟩ → (vals.hash = none ∨ vals.hash = some []) →
      (∀ p ∈ (vals.other.getD []), ∀ c ∈ p.1.toList, safeNameChar c = true) →
      ∃ qv, DewartPG.hashQueryResolve cfg q vals = .ok qv) := by
  refine ⟨?_, ?_, ?_, ?_, ?_⟩
  · intro cfg q vals hcfg
    simp [DewartPG.hashQueryResolve, DewartPG.checkSecret, hcfg]
  · intro cfg h q vals hcfg hsec
    simp [DewartPG.hashQueryResolve, DewartPG.checkSecret, hcfg, hsec]
  · intro cfg s q vals kv l hcfg hvals
    simp [DewartPG.hashQueryResolve, DewartPG.checkSecret, hcfg, hvals,
      DewartPG._prepareHashParams, DewartPG.hashParamsList, DewartPG._hash]
  · intro cfg q vals e hasCb hasErr conn h
    refine ⟨?_, ?_, ?_, ?_⟩
    · intro q2 vs
      cases hasErr <;> simp [DewartPG.hashQueryRun, h]
    · cases hasErr <;> simp [DewartPG.hashQueryRun, h]
    · intro q2 vs
      rw [DewartPG.hashQueryResolve] at h
      split at h
      · rename_i hcheck
        simp [DewartPG.hashQuerySyncRun, hcheck]
      · rename_i hcheck
        split at h
        · rename_i hprep
          simp [DewartPG.hashQuerySyncRun, hcheck, hprep]
        · rename_i ps hprep
          simp [DewartPG.hashQuerySyncRun, hcheck, hprep, h]
    · rw [DewartPG.hashQueryResolve] at h
      split at h
      · rename_i hcheck
        simp [DewartPG.hashQuerySyncRun, hcheck]
      · rename_i hcheck
        split at h
        · rename_i hprep
          simp [DewartPG.hashQuerySyncRun, hcheck, hprep]
        · rename_i ps hprep
          simp [DewartPG.hashQuerySyncRun, hcheck, hprep, h]
  · intro cfg s alg q vals hcfg hhash hsafe
    have hps : DewartPG._prepareHashParams cfg vals =
        .ok ((vals.other.getD []).map (fun kv => ⟨kv.1, kv.2⟩)) := by
      rcases hhash with h | h <;>
        simp [DewartPG._prepareHashParams, h, DewartPG.hashParamsList]
    obtain ⟨qv, hqv⟩ := substLoop_safe ((vals.other.getD []).map (fun kv => ⟨kv.1, kv.2⟩)) q 0
      (by
        intro p hp
        obtain ⟨kv, hkv, rfl⟩ := List.mem_map.1 hp
        exact hsafe kv hkv)
    exact ⟨qv, by simp [DewartPG.hashQueryResolve, DewartPG.checkSecret, hcfg, hps, hqv]⟩

/-- C3 witness: the amended failure modes and the amended success mode at
concrete inputs — absent hash configuration, missing secret, missing
algorithm with a hash field, and a successful secret-only call with only an
`other` field; a failed resolution never leases a connection. -/
theorem c3_witness :
    DewartPG.hashQueryResolve ⟨none, some false⟩ "q0" ⟨none, none⟩ = .error .typeError ∧
    DewartPG.hashQueryResolve ⟨some ⟨none, some "sha256"⟩, none⟩ "q0" ⟨none, none⟩ =
      .error .configError ∧
    DewartPG.hashQueryResolve ⟨some ⟨some "kk", none⟩, none⟩ "q0" ⟨some [("a", "xx")], none⟩ =
      .error .configError ∧
    Event.leased ∉ DewartPG.hashQueryRun ⟨none, some false⟩ "q0" ⟨none, none⟩ true true none ∧
    (∃ qv, DewartPG.hashQueryResolve ⟨some ⟨some "kk", none⟩, none⟩ "SELECT 2"
      ⟨some [], some [("b", "yy")]⟩ = .ok qv) :=
  ⟨c3_secret_required_unconditionally.1 _ "q0" _ rfl,
   c3_secret_required_unconditionally.2.1 _ _ "q0" _ rfl rfl,
   c3_secret_required_unconditionally.2.2.1 _ "kk" "q0" _ ("a", "xx") [] rfl rfl,
   (c3_secret_required_unconditionally.2.2.2.1 _ "q0" _ .typeError true true none
      (by decide)).2.1,
   c3_secret_required_unconditionally.2.2.2.2 _ "kk" none "SELECT 2" _ rfl (Or.inr rfl)
     (by decide)⟩

/-- C10: the marker patterns interpolate the raw field name into the regex
source unescaped, so (i) for names made only of non-metacharacters the
global replacement of `\x7b%name%\x7d` and `\x7b&name&\x7d` coincides with
literal all-occurrence text replacement, (ii) a name containing the
metacharacter `.` is matched as a pattern — `a.c`'s markers rewrite the
different text `\x7b%axc%\x7d`/`\x7b&ayc&\x7d`, which literal replacement
would leave unchanged — and (iii) a name containing `(` yields an invalid
pattern, so the call fails (routed to the error handler) instead of
resolving. -/
theorem c10_regex_interpolation :
    (∀ (name repl s : String), (∀ c ∈ name.toList, safeNameChar c = true) →
      jsReplaceAll (DewartPG.namePattern name) repl s =
        .ok (replaceAllLit (DewartPG.namePattern name) repl s) ∧
      jsReplaceAll (DewartPG.valuePattern name) repl s =
        .ok (replaceAllLit (DewartPG.valuePattern name) repl s)) ∧
    (DewartPG.hashQueryResolve ⟨some ⟨some "k", none⟩, none⟩
        "SELECT \x7b%axc%\x7d \x7b&ayc&\x7d" ⟨none, some [("a.c", "v")]⟩ =
        .ok ("SELECT a.c $1", ["v"]) ∧
      replaceAllLit (DewartPG.namePattern "a.c") "a.c" "SELECT \x7b%axc%\x7d \x7b&ayc&\x7d" =
        "SELECT \x7b%axc%\x7d \x7b&ayc&\x7d") ∧
    (DewartPG.hashQueryResolve ⟨some ⟨some "k", none⟩, none⟩ "SELECT 1"
        ⟨none, some [("(", "v")]⟩ = .error .regexError ∧
      DewartPG.hashQueryRun ⟨some ⟨some "k", none⟩, none⟩ "SELECT 1"
        ⟨none, some [("(", "v")]⟩ true true (some (.success 0)) = [.errorCalled]) :=
  ⟨fun name repl s h => ⟨jsReplaceAll_lit _ _ _ (namePattern_plain name h),
      jsReplaceAll_lit _ _ _ (valuePattern_plain name h)⟩,
   ⟨by decide, by decide⟩, ⟨by decide, by decide⟩⟩

/-- C10 witness: literal-replacement agreement at the safe name `login`,
with the replacement evaluated. -/
theorem c10_witness :
    jsReplaceAll (DewartPG.namePattern "login") "login" "X \x7b%login%\x7d" =
      .ok (replaceAllLit (DewartPG.namePattern "login") "login" "X \x7b%login%\x7d") ∧
    replaceAllLit (DewartPG.namePattern "login") "login" "X \x7b%login%\x7d" = "X login" :=
  ⟨(c10_regex_interpolation.1 "login" "login" "X \x7b%login%\x7d" (by decide)).1, by decide⟩
